import Mathlib

/-!
# Verification of the DWGPAS scoring core
  (src/backend/app/algorithms/dwgpas.py)

Shallow embedding of the Dynamic Weighted Graph-based Path Assessment
System: route segmentation, weighted segment scoring with exponential
time decay, anomaly detection, preference-based route optimization and
route-level metrics.  Python floats are modelled as real numbers;
timestamps are modelled as real numbers measured in hours, so that the
source's `(timestamp - last_updated).total_seconds() / 3600` becomes
plain subtraction.  Python dictionaries with string keys are modelled
as functions `String → Option _` (lookup misses give `none`, matching
`dict.get`). Dict keys read with `.get(key, default)` are modelled as
`Option` fields read with `Option.getD`.
-/

set_option autoImplicit false

namespace DWGPAS

/-- One risk-factor observation, as produced by `_fetch_risk_factors`:
a dict with keys `score`, `last_updated` and `sources`.  The scorer
reads `score` via `.get('score', 0.5)` and tests `'last_updated' in
factors[factor]`, so both are `Option` fields here. `last_updated`
(an isoformat string in the source) is modelled as hours. -/
structure RiskFactor where
  score : Option ℝ := none
  last_updated : Option ℝ := none
  sources : List String := []

/-- An anomaly record as built in `_detect_anomalies`
(keys `type`, `original_score`, `adjusted_score`, `z_score`, `threshold`). -/
structure AnomalyRecord where
  type : String
  original_score : ℝ
  adjusted_score : ℝ
  z_score : ℝ
  threshold : ℝ

/-- A route segment dict.  `_segment_route` creates dicts with keys
`start`, `end`, `segment_id`, `length`; later pipeline stages add
`safety_score`, `risk_factors`, `anomalies`, `combined_score`, and read
possibly-missing keys (`duration`, `normalized_duration`) with `.get`
defaults — hence the `Option` fields, defaulting to `none` (key absent).
The source dict key `end` is a Lean keyword so the field is `end_`. -/
structure Segment where
  segment_id : String := ""
  start : ℝ × ℝ := (0, 0)
  end_ : ℝ × ℝ := (0, 0)
  length : Option ℝ := none
  duration : Option ℝ := none
  normalized_duration : Option ℝ := none
  safety_score : Option ℝ := none
  risk_factors : Option (String → Option RiskFactor) := none
  anomalies : Option (List AnomalyRecord) := none
  combined_score : Option ℝ := none

/-- Engine configuration (the dict built in `DWGPAS.__init__`).
`base_weights` keeps the insertion order of the Python dict, which the
scorer iterates with `.items()`. -/
structure Config where
  base_weights : List (String × ℝ)
  time_decay_hours : ℝ
  anomaly_threshold : ℝ
  max_route_segments : ℕ

/-- The default configuration from `DWGPAS.__init__`. -/
noncomputable def defaultConfig : Config :=
  { base_weights :=
      [("crime", 0.3), ("lighting", 0.2), ("population", 0.15),
       ("traffic", 0.15), ("weather", 0.1), ("time_of_day", 0.1)],
    time_decay_hours := 24,
    anomaly_threshold := 2.0,
    max_route_segments := 1000 }

/-! ## `_calculate_distance` and `_segment_route` -/

/-- Python `math.atan2`, by cases on the signs of the arguments. -/
noncomputable def atan2 (y x : ℝ) : ℝ :=
  if 0 < x then Real.arctan (y / x)
  else if x < 0 ∧ 0 ≤ y then Real.arctan (y / x) + Real.pi
  else if x < 0 ∧ y < 0 then Real.arctan (y / x) - Real.pi
  else if x = 0 ∧ 0 < y then Real.pi / 2
  else if x = 0 ∧ y < 0 then -(Real.pi / 2)
  else 0

/-- Source `_calculate_distance`: haversine distance in meters between two
`(latitude, longitude)` pairs in degrees; `radians x = x·π/180`. -/
noncomputable def calculate_distance (coord1 coord2 : ℝ × ℝ) : ℝ :=
  let lat1 := coord1.1 * Real.pi / 180
  let lon1 := coord1.2 * Real.pi / 180
  let lat2 := coord2.1 * Real.pi / 180
  let lon2 := coord2.2 * Real.pi / 180
  let dlat := lat2 - lat1
  let dlon := lon2 - lon1
  let a := Real.sin (dlat / 2) ^ 2 +
    Real.cos lat1 * Real.cos lat2 * Real.sin (dlon / 2) ^ 2
  let c := 2 * atan2 (Real.sqrt a) (Real.sqrt (1 - a))
  6371000 * c

/-- Source `_segment_route`: for `i in range(len(coords) - 1)` build the dict
`{start: coords[i], end: coords[i+1], segment_id: "seg_"+i,
length: distance(coords[i], coords[i+1])}`.  The `max_segment_length`
parameter exists in the source signature but is unused by its body.
The source body has no error path: it returns the (possibly empty)
list unconditionally, for any input length, and never consults the
configured `max_route_segments`. -/
noncomputable def segment_route (coords : List (ℝ × ℝ))
    (_max_segment_length : ℕ := 100) : List Segment :=
  (List.range (coords.length - 1)).map fun i =>
    { segment_id := "seg_" ++ toString i,
      start := coords.getD i (0, 0),
      end_ := coords.getD (i + 1) (0, 0),
      length := some (calculate_distance (coords.getD i (0, 0)) (coords.getD (i + 1) (0, 0))) }

/-! ## `_calculate_segment_scores` -/

/-- The per-factor score used inside the weighting loop:
`factor_score = factors[factor].get('score', 0.5)`, then, when the
`last_updated` key is present, exponential decay toward 0.5:
`0.5 + (factor_score - 0.5) * exp(-(timestamp - last_updated)/decay_hours)`.
Note the source does NOT clamp a negative time difference. -/
noncomputable def decayedFactorScore (cfg : Config) (timestamp : ℝ) (f : RiskFactor) : ℝ :=
  let factor_score := f.score.getD 0.5
  match f.last_updated with
  | none => factor_score
  | some last_updated =>
      let time_diff_hours := timestamp - last_updated
      let decay := Real.exp (-time_diff_hours / cfg.time_decay_hours)
      0.5 + (factor_score - 0.5) * decay

/-- One iteration of the accumulation loop of
`_calculate_segment_scores`: skip the factor when it is absent from
the segment's factor dict (`if factor in factors`), otherwise
accumulate `weighted_score += factor_score * weight` and
`total_weight += weight` on the running pair. -/
noncomputable def weightedStep (cfg : Config) (factors : String → Option RiskFactor)
    (timestamp : ℝ) (acc : ℝ × ℝ) (fw : String × ℝ) : ℝ × ℝ :=
  match factors fw.1 with
  | none => acc
  | some f => (acc.1 + decayedFactorScore cfg timestamp f * fw.2, acc.2 + fw.2)

/-- The accumulation loop of `_calculate_segment_scores`:
`for factor, weight in base_weights.items(): ...`, starting from
`weighted_score = 0.0, total_weight = 0.0`.
Returns `(weighted_score, total_weight)`. -/
noncomputable def weightedSums (cfg : Config) (factors : String → Option RiskFactor)
    (timestamp : ℝ) : ℝ × ℝ :=
  cfg.base_weights.foldl (weightedStep cfg factors timestamp) (0, 0)

/-- Normalization `safety_score = weighted_score / total_weight if total_weight > 0 else 0.5`. -/
noncomputable def rawSafetyScore (cfg : Config) (factors : String → Option RiskFactor)
    (timestamp : ℝ) : ℝ :=
  let ws := weightedSums cfg factors timestamp
  if 0 < ws.2 then ws.1 / ws.2 else 0.5

/-- Population mean, as `np.mean`. -/
noncomputable def populationMean (xs : List ℝ) : ℝ := xs.sum / xs.length

/-- Population standard deviation (ddof = 0), as used by
`scipy.stats.zscore`'s default. -/
noncomputable def populationStd (xs : List ℝ) : ℝ :=
  Real.sqrt (((xs.map fun x => (x - populationMean xs) ^ 2).sum) / xs.length)

/-- Entry `zscore(scores)[i] = (scores[i] - mean) / std`.  On a constant list
the std is 0: scipy then yields NaN, and any comparison of NaN with the
threshold is false; here real division by zero yields 0, whose
comparison with a nonnegative threshold is equally false, so the
branch taken is the same. -/
noncomputable def zscoreAt (xs : List ℝ) (i : ℕ) : ℝ :=
  (xs.getD i 0 - populationMean xs) / populationStd xs

/-- Source `_detect_anomalies(segment, current_score, all_segments)`.
`scores = [s.get('safety_score', 0.5) for s in all_segments]`; when more
than one segment, the z-score at this segment's position
(`all_segments.index(segment)`, modelled by passing the position `idx`
from the caller's iteration) is compared with the threshold; an
anomalous score is pulled halfway to the mean.  The source appends the
anomaly record to the INPUT dict's `anomalies` key — a key
`_segment_route` never creates (a `KeyError` if reached), and in any
case overwritten by the literal `[]` the caller stores in the scored
segment — so the record list is returned here and dropped by the
caller, exactly as the scored output drops it. -/
noncomputable def detect_anomalies (cfg : Config) (idx : ℕ) (current_score : ℝ)
    (all_segments : List Segment) : ℝ × List AnomalyRecord :=
  let scores := all_segments.map fun s => s.safety_score.getD 0.5
  if 1 < scores.length then
    let z := zscoreAt scores idx
    if cfg.anomaly_threshold < |z| then
      let mean_score := populationMean scores
      let adjusted_score := mean_score + (current_score - mean_score) * 0.5
      (adjusted_score,
        [{ type := "safety_score", original_score := current_score,
           adjusted_score := adjusted_score, z_score := z,
           threshold := cfg.anomaly_threshold }])
    else (current_score, [])
  else (current_score, [])

/-- The body of the per-segment loop of `_calculate_segment_scores`:
fetch this segment's factor dict (`risk_factors.get(segment_id, {})`),
compute the weighted score, run `_detect_anomalies` against
`all_segments` (the caller passes its INPUT list `segments`, whose
elements carry no `safety_score` yet), and build the scored dict
`{**segment, safety_score, risk_factors, anomalies: []}`. -/
noncomputable def scoreOne (cfg : Config) (all_segments : List Segment)
    (risk_factors : String → Option (String → Option RiskFactor))
    (timestamp : ℝ) (idx : ℕ) (segment : Segment) : Segment :=
  let factors := (risk_factors segment.segment_id).getD fun _ => none
  let safety0 := rawSafetyScore cfg factors timestamp
  let safety := (detect_anomalies cfg idx safety0 all_segments).1
  { segment with
      safety_score := some safety,
      risk_factors := some factors,
      anomalies := some [] }

/-- The loop of `_calculate_segment_scores`, carrying the position of
the current segment in the full list (the source recovers it inside
`_detect_anomalies` with `all_segments.index(segment)`). -/
noncomputable def scoreSegmentsAux (cfg : Config) (all_segments : List Segment)
    (risk_factors : String → Option (String → Option RiskFactor))
    (timestamp : ℝ) : ℕ → List Segment → List Segment
  | _, [] => []
  | idx, segment :: rest =>
      scoreOne cfg all_segments risk_factors timestamp idx segment ::
        scoreSegmentsAux cfg all_segments risk_factors timestamp (idx + 1) rest

/-- Source `_calculate_segment_scores(segments, risk_factors, timestamp)`. -/
noncomputable def calculate_segment_scores (cfg : Config) (segments : List Segment)
    (risk_factors : String → Option (String → Option RiskFactor))
    (timestamp : ℝ) : List Segment :=
  scoreSegmentsAux cfg segments risk_factors timestamp 0 segments

/-! ## `_optimize_route` -/

/-- The per-segment combined score assigned by `_optimize_route`:
`preference * segment.get('safety_score', 0.5)
 + (1 - preference) * (1 - segment.get('normalized_duration', 0.5))`. -/
noncomputable def combinedScore (preference : ℝ) (segment : Segment) : ℝ :=
  preference * segment.safety_score.getD 0.5 +
    (1 - preference) * (1 - segment.normalized_duration.getD 0.5)

/-- Source `_optimize_route(segments, preference)`: annotate every segment
with its combined score (the source mutates each dict in place and
returns the same list). -/
noncomputable def optimize_route (segments : List Segment) (preference : ℝ) : List Segment :=
  segments.map fun segment =>
    { segment with combined_score := some (combinedScore preference segment) }

/-! ## `_calculate_route_metrics` -/

/-- The result dict of `_calculate_route_metrics`. -/
structure RouteMetrics where
  total_distance_meters : ℝ
  total_duration_seconds : ℝ
  average_safety_score : ℝ
  segment_count : ℕ
  hazardous_segments : ℕ

/-- The loop of `_calculate_route_metrics` building the two parallel
lists `safety_scores` and `weights`: a segment contributes the pair
`(safety_score, length)` when `s.get('length', 0) > 0` and
`'safety_score' in segment`. -/
noncomputable def metricWeightPairs : List Segment → List (ℝ × ℝ)
  | [] => []
  | s :: rest =>
      let tail := metricWeightPairs rest
      match s.safety_score with
      | some sc => if 0 < s.length.getD 0 then (sc, s.length.getD 0) :: tail else tail
      | none => tail

/-- Source `_calculate_route_metrics(segments)`.  `np.average(scores, weights)`
is `Σ scoreᵢ·weightᵢ / Σ weightᵢ`, used only when `weights` is nonempty
(`if weights else 0.5`).  `hazardous_segments` counts
`s.get('safety_score', 1) < 0.3`. -/
noncomputable def calculate_route_metrics (segments : List Segment) : RouteMetrics :=
  let pairs := metricWeightPairs segments
  { total_distance_meters := (segments.map fun s => s.length.getD 0).sum,
    total_duration_seconds := (segments.map fun s => s.duration.getD 0).sum,
    average_safety_score :=
      match pairs with
      | [] => 0.5
      | _ => ((pairs.map fun p => p.1 * p.2).sum) / ((pairs.map fun p => p.2).sum),
    segment_count := segments.length,
    hazardous_segments := (segments.filter fun s => s.safety_score.getD 1 < 0.3).length }

/-! ## `_calculate_time_of_day_score` -/

/-- Source `_calculate_time_of_day_score(timestamp)`, as a function of
`timestamp.hour` (an integer in `[0, 23]`).  Modelled over `ℚ` (the
values are the exact literals 0.3 / 0.6 / 0.9, no transcendental
arithmetic is involved). -/
def calculate_time_of_day_score (hour : ℕ) : ℚ :=
  if 22 ≤ hour ∨ hour < 5 then 0.3
  else if (5 ≤ hour ∧ hour < 7) ∨ (20 ≤ hour ∧ hour < 22) then 0.6
  else 0.9

/-! ## Helper lemmas -/

/-- A list of segments none of which carries a `safety_score` yields a
constant list of the default 0.5 in `_detect_anomalies`. -/
theorem map_getD_safety_of_none {segs : List Segment}
    (h : ∀ s ∈ segs, s.safety_score = none) :
    segs.map (fun s => s.safety_score.getD 0.5) = List.replicate segs.length 0.5 := by
  induction segs with
  | nil => rfl
  | cons s rest ih =>
      have hs : s.safety_score = none := h s (List.mem_cons_self s rest)
      have hr : ∀ x ∈ rest, x.safety_score = none := fun x hx => h x (List.mem_cons_of_mem s hx)
      simp [hs, ih hr, List.replicate_succ]

/-- The population mean of a nonempty constant list is the constant. -/
theorem populationMean_replicate (n : ℕ) (c : ℝ) (hn : n ≠ 0) :
    populationMean (List.replicate n c) = c := by
  have : ((n : ℝ)) ≠ 0 := Nat.cast_ne_zero.mpr hn
  simp [populationMean, List.sum_replicate, nsmul_eq_mul]
  field_simp

/-- The population standard deviation of a constant list is zero. -/
theorem populationStd_replicate (n : ℕ) (c : ℝ) :
    populationStd (List.replicate n c) = 0 := by
  cases n with
  | zero => simp [populationStd, populationMean]
  | succ m =>
      have hmean := populationMean_replicate (m + 1) c (Nat.succ_ne_zero m)
      simp [populationStd, hmean, List.map_replicate, List.sum_replicate]

/-- On a constant score list the z-score degenerates (std = 0): scipy
returns NaN there, so the threshold comparison is false; here the
division by zero returns 0, with the same false comparison. -/
theorem zscoreAt_replicate (n : ℕ) (c : ℝ) (i : ℕ) :
    zscoreAt (List.replicate n c) i = 0 := by
  simp [zscoreAt, populationStd_replicate]

/-- Source `_detect_anomalies` never adjusts a score nor emits a record when
the `all_segments` it receives carry no `safety_score` keys — which is
exactly what `_calculate_segment_scores` passes it, since it hands over
its own raw input list. -/
theorem detect_anomalies_unscored (cfg : Config) (idx : ℕ) (c : ℝ)
    {segs : List Segment} (h : ∀ s ∈ segs, s.safety_score = none)
    (ht : 0 ≤ cfg.anomaly_threshold) :
    detect_anomalies cfg idx c segs = (c, []) := by
  have h0 : ¬ cfg.anomaly_threshold < |(0 : ℝ)| := by simpa using ht
  simp only [detect_anomalies, map_getD_safety_of_none h, zscoreAt_replicate, h0, if_false]
  split <;> rfl

/-- The scoring loop preserves the number of segments. -/
theorem scoreSegmentsAux_length (cfg : Config) (all : List Segment)
    (rf : String → Option (String → Option RiskFactor)) (t : ℝ) :
    ∀ (l : List Segment) (j : ℕ), (scoreSegmentsAux cfg all rf t j l).length = l.length
  | [], _ => rfl
  | _ :: rest, j => by
      simp [scoreSegmentsAux, scoreSegmentsAux_length cfg all rf t rest (j + 1)]

/-- Element `i` of the scoring loop's output is `scoreOne` applied to
element `i` of its input, at position `j + i`. -/
theorem scoreSegmentsAux_getD (cfg : Config) (all : List Segment)
    (rf : String → Option (String → Option RiskFactor)) (t : ℝ) (d : Segment) :
    ∀ (l : List Segment) (j i : ℕ), i < l.length →
      (scoreSegmentsAux cfg all rf t j l).getD i d = scoreOne cfg all rf t (j + i) (l.getD i d)
  | [], _, i, h => absurd h (by simp)
  | _ :: _, _, 0, _ => by simp [scoreSegmentsAux]
  | s :: rest, j, i + 1, h => by
      have hrec := scoreSegmentsAux_getD cfg all rf t d rest (j + 1) i (by simpa using h)
      have hj : j + 1 + i = j + (i + 1) := by omega
      simp only [scoreSegmentsAux, List.getD_cons_succ, hrec, hj]

/-- The weighting loop leaves its accumulator untouched when every
configured factor name is absent from the segment's factor dict. -/
theorem foldl_weightedStep_absent (cfg : Config) (factors : String → Option RiskFactor)
    (t : ℝ) :
    ∀ (ws : List (String × ℝ)) (init : ℝ × ℝ), (∀ p ∈ ws, factors p.1 = none) →
      ws.foldl (weightedStep cfg factors t) init = init
  | [], _, _ => rfl
  | p :: rest, init, h => by
      have hp : factors p.1 = none := h p (List.mem_cons_self p rest)
      have hr : ∀ q ∈ rest, factors q.1 = none := fun q hq => h q (List.mem_cons_of_mem p hq)
      simp only [List.foldl_cons, weightedStep, hp]
      exact foldl_weightedStep_absent cfg factors t rest init hr

/-- With all-zero weights, the accumulated total weight never moves. -/
theorem foldl_weightedStep_snd_zero (cfg : Config) (factors : String → Option RiskFactor)
    (t : ℝ) :
    ∀ (ws : List (String × ℝ)) (init : ℝ × ℝ), (∀ p ∈ ws, p.2 = 0) →
      (ws.foldl (weightedStep cfg factors t) init).2 = init.2
  | [], _, _ => rfl
  | p :: rest, init, h => by
      have hp : p.2 = 0 := h p (List.mem_cons_self p rest)
      have hr : ∀ q ∈ rest, q.2 = 0 := fun q hq => h q (List.mem_cons_of_mem p hq)
      simp only [List.foldl_cons, weightedStep]
      rcases hf : factors p.1 with _ | f
      · exact foldl_weightedStep_snd_zero cfg factors t rest init hr
      · rw [foldl_weightedStep_snd_zero cfg factors t rest _ hr]
        simp [hp]

/-- Invariant of the weighting loop: with nonnegative weights and
per-factor decayed scores in `[0, 1]`, the running weighted sum stays
between 0 and the running total weight. -/
theorem foldl_weightedStep_bounds (cfg : Config) (factors : String → Option RiskFactor)
    (t : ℝ) :
    ∀ (ws : List (String × ℝ)) (init : ℝ × ℝ),
      (∀ p ∈ ws, 0 ≤ p.2) →
      (∀ p ∈ ws, ∀ f, factors p.1 = some f →
        0 ≤ decayedFactorScore cfg t f ∧ decayedFactorScore cfg t f ≤ 1) →
      0 ≤ init.1 → init.1 ≤ init.2 →
      0 ≤ (ws.foldl (weightedStep cfg factors t) init).1 ∧
        (ws.foldl (weightedStep cfg factors t) init).1 ≤
          (ws.foldl (weightedStep cfg factors t) init).2
  | [], _, _, _, h1, h2 => ⟨h1, h2⟩
  | p :: rest, init, hw, hf, h1, h2 => by
      have hwp : 0 ≤ p.2 := hw p (List.mem_cons_self p rest)
      have hwr : ∀ q ∈ rest, 0 ≤ q.2 := fun q hq => hw q (List.mem_cons_of_mem p hq)
      have hfr : ∀ q ∈ rest, ∀ f, factors q.1 = some f →
          0 ≤ decayedFactorScore cfg t f ∧ decayedFactorScore cfg t f ≤ 1 :=
        fun q hq => hf q (List.mem_cons_of_mem p hq)
      simp only [List.foldl_cons, weightedStep]
      rcases hfac : factors p.1 with _ | f
      · exact foldl_weightedStep_bounds cfg factors t rest init hwr hfr h1 h2
      · obtain ⟨hd0, hd1⟩ := hf p (List.mem_cons_self p rest) f hfac
        refine foldl_weightedStep_bounds cfg factors t rest _ hwr hfr ?_ ?_
        · exact add_nonneg h1 (mul_nonneg hd0 hwp)
        · have : decayedFactorScore cfg t f * p.2 ≤ 1 * p.2 :=
            mul_le_mul_of_nonneg_right hd1 hwp
          simp only []
          nlinarith

/-- A decayed factor score stays in `[0, 1]` when the raw score is in
`[0, 1]`, the observation is not in the future, and the decay half-life
is positive: the decay multiplier `exp(-age/decay_hours)` then lies in
`(0, 1]`, so the deviation from the neutral 0.5 can only shrink. -/
theorem decayedFactorScore_mem (cfg : Config) (t : ℝ) (f : RiskFactor)
    (h0 : 0 ≤ f.score.getD 0.5) (h1 : f.score.getD 0.5 ≤ 1)
    (hage : ∀ u, f.last_updated = some u → u ≤ t)
    (hdk : 0 < cfg.time_decay_hours) :
    0 ≤ decayedFactorScore cfg t f ∧ decayedFactorScore cfg t f ≤ 1 := by
  rcases hlu : f.last_updated with _ | u
  · simp only [decayedFactorScore, hlu]
    exact ⟨h0, h1⟩
  · have hu : u ≤ t := hage u hlu
    simp only [decayedFactorScore, hlu]
    set e := Real.exp (-(t - u) / cfg.time_decay_hours) with he
    have hepos : 0 < e := Real.exp_pos _
    have harg : -(t - u) / cfg.time_decay_hours ≤ 0 := by
      rw [neg_div]
      exact neg_nonpos.mpr (div_nonneg (by linarith) hdk.le)
    have hele : e ≤ 1 := by
      rw [he, ← Real.exp_zero]
      exact Real.exp_le_exp.mpr harg
    constructor <;>
      nlinarith [mul_nonneg h0 hepos.le, mul_nonneg (sub_nonneg.mpr h1) hepos.le]

/-- The normalized safety score of the weighting loop always lies in
`[0, 1]` under nonnegative weights, in-range raw scores, non-future
observations and a positive decay half-life (in the degenerate
total-weight-0 branch it is the neutral 0.5). -/
theorem rawSafetyScore_mem (cfg : Config) (factors : String → Option RiskFactor) (t : ℝ)
    (hw : ∀ p ∈ cfg.base_weights, 0 ≤ p.2)
    (hraw : ∀ p ∈ cfg.base_weights, ∀ f, factors p.1 = some f →
      0 ≤ f.score.getD 0.5 ∧ f.score.getD 0.5 ≤ 1)
    (hage : ∀ p ∈ cfg.base_weights, ∀ f, factors p.1 = some f →
      ∀ u, f.last_updated = some u → u ≤ t)
    (hdk : 0 < cfg.time_decay_hours) :
    0 ≤ rawSafetyScore cfg factors t ∧ rawSafetyScore cfg factors t ≤ 1 := by
  have hf : ∀ p ∈ cfg.base_weights, ∀ f, factors p.1 = some f →
      0 ≤ decayedFactorScore cfg t f ∧ decayedFactorScore cfg t f ≤ 1 := by
    intro p hp f hfac
    exact decayedFactorScore_mem cfg t f (hraw p hp f hfac).1 (hraw p hp f hfac).2
      (hage p hp f hfac) hdk
  have hb := foldl_weightedStep_bounds cfg factors t cfg.base_weights (0, 0) hw hf
    le_rfl le_rfl
  unfold rawSafetyScore
  rcases lt_or_ge 0 (weightedSums cfg factors t).2 with hpos | hneg
  · rw [if_pos hpos]
    exact ⟨div_nonneg hb.1 hpos.le, (div_le_one hpos).mpr hb.2⟩
  · rw [if_neg (not_lt.mpr hneg)]
    norm_num

/-! ## Claims -/

/-- C5 (amended): `_segment_route` has no error path for degenerate
input: for every coordinate list with fewer than 2 coordinates it
returns the empty segment list (no `InvalidRouteError` exists in the
source). -/
theorem C5_short_route_returns_empty (coords : List (ℝ × ℝ)) (ml : ℕ)
    (h : coords.length < 2) : segment_route coords ml = [] := by
  have h0 : coords.length - 1 = 0 := by omega
  simp [segment_route, h0]

/-- C5 witness: a one-coordinate route yields the empty segment list. -/
theorem C5_short_route_returns_empty_witness :
    segment_route [((40 : ℝ), (-73 : ℝ))] 100 = [] :=
  C5_short_route_returns_empty [((40 : ℝ), (-73 : ℝ))] 100 (by norm_num)

/-- C5 counterexample: on a single-coordinate route the segmenter
returns the empty segment list instead of failing — the claimed
`InvalidRouteError` does not exist in the source and no failure
occurs. -/
theorem C5_counterexample : segment_route [((0 : ℝ), (0 : ℝ))] = [] := by
  simp [segment_route]

/-- The segment count of `_segment_route` is always the coordinate
count minus one. -/
theorem segment_route_length (coords : List (ℝ × ℝ)) (ml : ℕ) :
    (segment_route coords ml).length = coords.length - 1 := by
  simp [segment_route]

/-- C6 (amended): `_segment_route` never consults the configured
`max_route_segments` limit and never fails or truncates: it always
returns exactly `coordinate count − 1` segments. -/
theorem C6_no_segment_count_limit (coords : List (ℝ × ℝ)) (ml : ℕ) :
    (segment_route coords ml).length = coords.length - 1 :=
  segment_route_length coords ml

/-- C6 counterexample: a route yielding `max_route_segments + 1`
segments (1002 coordinates against the default limit 1000) does not
fail with `RouteTooComplexError` (which does not exist in the source):
all 1001 segments are returned. -/
theorem C6_counterexample :
    (segment_route (List.replicate (defaultConfig.max_route_segments + 2)
      ((0 : ℝ), (0 : ℝ)))).length = defaultConfig.max_route_segments + 1 := by
  rw [segment_route_length, List.length_replicate]
  omega

/-- C8: with `preference = 0` the combined score ignores
`safety_score` (it depends only on the duration term), and with
`preference = 1` it ignores `normalized_duration`: overwriting the
ignored field with any value leaves the combined score of
`_optimize_route` unchanged. -/
theorem C8_preference_extremes_ignore_field (s : Segment) (v : Option ℝ) :
    combinedScore 0 { s with safety_score := v } = combinedScore 0 s ∧
    combinedScore 1 { s with normalized_duration := v } = combinedScore 1 s ∧
    (optimize_route [{ s with safety_score := v }] 0).map (fun x => x.combined_score) =
      (optimize_route [s] 0).map (fun x => x.combined_score) ∧
    (optimize_route [{ s with normalized_duration := v }] 1).map (fun x => x.combined_score) =
      (optimize_route [s] 1).map (fun x => x.combined_score) := by
  refine ⟨?_, ?_, ?_, ?_⟩ <;> simp [combinedScore, optimize_route]

/-- C10: the time-of-day score is defined for all 24 hours, always one
of 0.3 / 0.6 / 0.9: 0.3 for hours 22–23 and 0–4, 0.6 for hours 5–6 and
20–21, and 0.9 for hours 7–19. -/
theorem C10_time_of_day_score_values (h : Fin 24) :
    (calculate_time_of_day_score h.val = 0.3 ∨ calculate_time_of_day_score h.val = 0.6 ∨
      calculate_time_of_day_score h.val = 0.9) ∧
    (calculate_time_of_day_score h.val = 0.3 ↔ 22 ≤ h.val ∨ h.val ≤ 4) ∧
    (calculate_time_of_day_score h.val = 0.6 ↔
      (5 ≤ h.val ∧ h.val ≤ 6) ∨ (20 ≤ h.val ∧ h.val ≤ 21)) ∧
    (calculate_time_of_day_score h.val = 0.9 ↔ 7 ≤ h.val ∧ h.val ≤ 19) := by
  fin_cases h <;> norm_num [calculate_time_of_day_score]

/-- A concrete factor dict holding a single `crime` observation with
raw score `sc` observed at time `lu` (hours), used as input to the
concrete instances below. -/
noncomputable def crimeFactorMap (sc lu : ℝ) : String → Option RiskFactor :=
  fun name =>
    if name = "crime" then
      some { score := some sc, last_updated := some lu, sources := ["historical_data"] }
    else none

/-- C1: a segment whose id has no entry in the risk-factor mapping, or
whose factor dict contains none of the configured factor names,
accumulates `total_weight = 0` and gets the neutral safety score 0.5,
and the anomaly-detection pass (which `_calculate_segment_scores` runs
against its raw input list, whose elements carry no `safety_score`)
leaves that value unchanged in the returned scored segment. -/
theorem C1_zero_factor_segment_scores_neutral (cfg : Config) (segments : List Segment)
    (risk_factors : String → Option (String → Option RiskFactor)) (timestamp : ℝ)
    (i : ℕ) (d : Segment) (hi : i < segments.length)
    (hunscored : ∀ s ∈ segments, s.safety_score = none)
    (ht : 0 ≤ cfg.anomaly_threshold)
    (hfac : risk_factors (segments.getD i d).segment_id = none ∨
      ∀ p ∈ cfg.base_weights,
        ((risk_factors (segments.getD i d).segment_id).getD fun _ => none) p.1 = none) :
    ((calculate_segment_scores cfg segments risk_factors timestamp).getD i d).safety_score
      = some 0.5 := by
  rw [calculate_segment_scores,
    scoreSegmentsAux_getD cfg segments risk_factors timestamp d segments 0 i hi]
  have hall : ∀ p ∈ cfg.base_weights,
      ((risk_factors (segments.getD i d).segment_id).getD fun _ => none) p.1 = none := by
    rcases hfac with h | h
    · intro p _
      rw [h]
      rfl
    · exact h
  simp only [scoreOne, detect_anomalies_unscored cfg (0 + i) _ hunscored ht]
  rw [rawSafetyScore, weightedSums, foldl_weightedStep_absent cfg _ timestamp _ _ hall]
  norm_num

/-- C1 witness: one segment, an empty risk-factor mapping, the default
configuration. -/
theorem C1_zero_factor_segment_scores_neutral_witness :
    ((calculate_segment_scores defaultConfig [{ segment_id := "seg_0" }]
      (fun _ => none) 0).getD 0 {}).safety_score = some 0.5 := by
  refine C1_zero_factor_segment_scores_neutral defaultConfig _ _ 0 0 {} (by norm_num) ?_ ?_ ?_
  · intro s hs
    rw [List.mem_singleton] at hs
    subst hs
    rfl
  · norm_num [defaultConfig]
  · exact Or.inl rfl

/-- C7 (amended): the source raises no `ScoringError` anywhere: with an
empty or all-zero weight configuration, `total_weight` stays 0 and
`_calculate_segment_scores` silently assigns every segment the neutral
safety score 0.5 instead of failing. -/
theorem C7_degenerate_weights_score_neutral (cfg : Config) (segments : List Segment)
    (risk_factors : String → Option (String → Option RiskFactor)) (timestamp : ℝ)
    (i : ℕ) (d : Segment) (hi : i < segments.length)
    (hzero : ∀ p ∈ cfg.base_weights, p.2 = 0)
    (hunscored : ∀ s ∈ segments, s.safety_score = none)
    (ht : 0 ≤ cfg.anomaly_threshold) :
    ((calculate_segment_scores cfg segments risk_factors timestamp).getD i d).safety_score
      = some 0.5 := by
  rw [calculate_segment_scores,
    scoreSegmentsAux_getD cfg segments risk_factors timestamp d segments 0 i hi]
  simp only [scoreOne, detect_anomalies_unscored cfg (0 + i) _ hunscored ht]
  have h2 : (weightedSums cfg
      ((risk_factors (segments.getD i d).segment_id).getD fun _ => none) timestamp).2 = 0 := by
    rw [weightedSums]
    exact foldl_weightedStep_snd_zero cfg _ timestamp cfg.base_weights (0, 0) hzero
  simp only [rawSafetyScore]
  rw [h2]
  norm_num

/-- C7 witness: an empty weight configuration, one segment with a
present crime factor — the scorer still produces the neutral 0.5 and no
error. -/
theorem C7_degenerate_weights_score_neutral_witness :
    ((calculate_segment_scores
      { base_weights := [], time_decay_hours := 24, anomaly_threshold := 2.0,
        max_route_segments := 1000 }
      [{ segment_id := "seg_0" }] (fun _ => some (crimeFactorMap 1 0)) 0).getD 0 {}).safety_score
      = some 0.5 := by
  refine C7_degenerate_weights_score_neutral _ _ _ 0 0 {} (by norm_num) ?_ ?_ ?_
  · intro p hp
    simp at hp
  · intro s hs
    rw [List.mem_singleton] at hs
    subst hs
    rfl
  · norm_num

/-- C7 counterexample: with an all-zero weight configuration and a
segment with a present in-range crime factor, the scorer does not fail
with any `ScoringError` (none exists in the source): it returns a
scored segment carrying the neutral score 0.5. -/
theorem C7_counterexample :
    ((calculate_segment_scores
      { base_weights := [("crime", 0)], time_decay_hours := 24, anomaly_threshold := 2.0,
        max_route_segments := 1000 }
      [{ segment_id := "seg_0" }] (fun _ => some (crimeFactorMap 1 0)) 0).getD 0 {}).safety_score
      = some 0.5 := by
  rw [calculate_segment_scores]
  rw [scoreSegmentsAux_getD _ _ _ _ _ _ 0 0 (by norm_num)]
  simp [scoreOne, detect_anomalies, rawSafetyScore, weightedSums, weightedStep,
    crimeFactorMap, decayedFactorScore]

/-- C2 (amended): for every weight configuration with nonnegative
weights whose accumulated total weight over the present factors is
positive, a positive decay half-life, present raw scores in `[0, 1]`
and present observation timestamps not later than the query timestamp,
the safety score is the weight-normalized (convex) combination of the
decayed scores and lies in `[0, 1]`.  (The restriction on observation
timestamps is forced: the source does not clamp negative ages, see the
counterexample.) -/
theorem C2_safety_score_in_unit_interval (cfg : Config)
    (factors : String → Option RiskFactor) (timestamp : ℝ)
    (hw : ∀ p ∈ cfg.base_weights, 0 ≤ p.2)
    (hraw : ∀ p ∈ cfg.base_weights, ∀ f, factors p.1 = some f →
      0 ≤ f.score.getD 0.5 ∧ f.score.getD 0.5 ≤ 1)
    (hage : ∀ p ∈ cfg.base_weights, ∀ f, factors p.1 = some f →
      ∀ u, f.last_updated = some u → u ≤ timestamp)
    (hdk : 0 < cfg.time_decay_hours)
    (_hpos : 0 < (weightedSums cfg factors timestamp).2) :
    0 ≤ rawSafetyScore cfg factors timestamp ∧ rawSafetyScore cfg factors timestamp ≤ 1 :=
  rawSafetyScore_mem cfg factors timestamp hw hraw hage hdk

/-- C2 witness: default weights, one present crime factor with raw
score 1 observed exactly at the query time. -/
theorem C2_safety_score_in_unit_interval_witness :
    0 ≤ rawSafetyScore defaultConfig (crimeFactorMap 1 0) 0 ∧
      rawSafetyScore defaultConfig (crimeFactorMap 1 0) 0 ≤ 1 := by
  refine C2_safety_score_in_unit_interval defaultConfig (crimeFactorMap 1 0) 0 ?_ ?_ ?_ ?_ ?_
  · intro p hp
    simp [defaultConfig] at hp
    rcases hp with rfl | rfl | rfl | rfl | rfl | rfl <;> norm_num
  · intro p hp f hf
    simp [crimeFactorMap] at hf
    rcases hf with ⟨-, rfl⟩
    norm_num
  · intro p hp f hf u hu
    simp [crimeFactorMap] at hf
    rcases hf with ⟨-, rfl⟩
    simp at hu
    subst hu
    exact le_rfl
  · norm_num [defaultConfig]
  · simp [weightedSums, defaultConfig, weightedStep, crimeFactorMap, decayedFactorScore]
    norm_num

/-- C2 counterexample: the claim quantifies over EVERY factor
observation timestamp; with the default weights, a single present crime
factor with raw score 1 (in `[0, 1]`) observed 24 hours after the query
timestamp, the total weight is the positive 0.3, yet the safety score
is `0.5 + 0.5·exp 1 > 1`. -/
theorem C2_counterexample :
    0 < (weightedSums defaultConfig (crimeFactorMap 1 24) 0).2 ∧
      1 < rawSafetyScore defaultConfig (crimeFactorMap 1 24) 0 := by
  constructor
  · simp [weightedSums, defaultConfig, weightedStep, crimeFactorMap, decayedFactorScore]
    norm_num
  · have hval : rawSafetyScore defaultConfig (crimeFactorMap 1 24) 0
        = 0.5 + 0.5 * Real.exp 1 := by
      simp [rawSafetyScore, weightedSums, defaultConfig, weightedStep, crimeFactorMap,
        decayedFactorScore]
      norm_num
    rw [hval]
    have h := Real.add_one_le_exp 1
    linarith

/-- C3 (amended): the source does NOT clamp a negative factor age.
For a factor observed strictly after the query timestamp (with a
positive decay half-life and a raw score different from the neutral
0.5) the decay multiplier `exp(-age/half_life)` exceeds 1, so the
decayed score is strictly FARTHER from 0.5 than the raw score — in
particular it does not equal the raw score. -/
theorem C3_negative_age_amplifies (cfg : Config) (f : RiskFactor) (timestamp u : ℝ)
    (hlu : f.last_updated = some u) (hfut : timestamp < u)
    (hdk : 0 < cfg.time_decay_hours) (hne : f.score.getD 0.5 ≠ 0.5) :
    |f.score.getD 0.5 - 0.5| < |decayedFactorScore cfg timestamp f - 0.5| := by
  simp only [decayedFactorScore, hlu]
  have harg : 0 < -(timestamp - u) / cfg.time_decay_hours :=
    div_pos (by linarith) hdk
  have he : 1 < Real.exp (-(timestamp - u) / cfg.time_decay_hours) := by
    rw [← Real.exp_zero]
    exact Real.exp_lt_exp.mpr harg
  have habs : 0 < |f.score.getD 0.5 - 0.5| := abs_pos.mpr (sub_ne_zero.mpr hne)
  have hsimp : 0.5 + (f.score.getD 0.5 - 0.5) *
      Real.exp (-(timestamp - u) / cfg.time_decay_hours) - 0.5
      = (f.score.getD 0.5 - 0.5) * Real.exp (-(timestamp - u) / cfg.time_decay_hours) := by
    ring
  rw [hsimp, abs_mul, abs_of_pos (lt_trans one_pos he)]
  exact (lt_mul_iff_one_lt_right habs).mpr he

/-- C3 witness: default configuration, raw score 1, observed 24 hours
after the query timestamp 0. -/
theorem C3_negative_age_amplifies_witness :
    |(({ score := some 1, last_updated := some 24 } : RiskFactor)).score.getD 0.5 - 0.5| <
      |decayedFactorScore defaultConfig 0 { score := some 1, last_updated := some 24 } - 0.5| :=
  C3_negative_age_amplifies defaultConfig { score := some 1, last_updated := some 24 } 0 24
    rfl (by norm_num) (by norm_num [defaultConfig]) (by norm_num)

/-- C3 counterexample: with the default half-life of 24 hours, a crime
factor with raw score 1 observed 24 hours after the query timestamp
decays to `0.5 + 0.5·exp 1 ≠ 1`: the age is not clamped to 0 and the
result is strictly farther from 0.5 than the raw score. -/
theorem C3_counterexample :
    decayedFactorScore defaultConfig 0 { score := some 1, last_updated := some 24 } ≠ 1 ∧
      |(1 : ℝ) - 0.5| <
        |decayedFactorScore defaultConfig 0 { score := some 1, last_updated := some 24 } - 0.5| := by
  have hval : decayedFactorScore defaultConfig 0 { score := some 1, last_updated := some 24 }
      = 0.5 + 0.5 * Real.exp 1 := by
    simp [decayedFactorScore, defaultConfig]
    norm_num
  have h1 := Real.add_one_le_exp 1
  rw [hval]
  constructor
  · intro hcontra
    nlinarith
  · have h2 : (0 : ℝ) < 0.5 * Real.exp 1 := by positivity
    rw [show (0.5 : ℝ) + 0.5 * Real.exp 1 - 0.5 = 0.5 * Real.exp 1 by ring, abs_of_pos h2]
    have h3 : |(1 : ℝ) - 0.5| = 0.5 := by norm_num
    rw [h3]
    nlinarith

/-- When the reference list handed to the anomaly pass is fully
unscored — which is always the case in the source, since
`_calculate_segment_scores` passes its own raw input `segments` — the
scoring loop returns every segment with its raw weighted score, an
empty anomaly list and no adjustment whatsoever. -/
theorem scoreSegmentsAux_unscored (cfg : Config) (all : List Segment)
    (rf : String → Option (String → Option RiskFactor)) (t : ℝ)
    (hall : ∀ s ∈ all, s.safety_score = none) (ht : 0 ≤ cfg.anomaly_threshold) :
    ∀ (l : List Segment) (j : ℕ),
      scoreSegmentsAux cfg all rf t j l = l.map fun segment =>
        { segment with
            safety_score :=
              some (rawSafetyScore cfg ((rf segment.segment_id).getD fun _ => none) t),
            risk_factors := some ((rf segment.segment_id).getD fun _ => none),
            anomalies := some ([] : List AnomalyRecord) }
  | [], _ => rfl
  | s :: rest, j => by
      have hd := detect_anomalies_unscored cfg j
        (rawSafetyScore cfg ((rf s.segment_id).getD fun _ => none) t) hall ht
      simp only [scoreSegmentsAux, List.map_cons, scoreOne, hd]
      exact congrArg _ (scoreSegmentsAux_unscored cfg all rf t hall ht rest (j + 1))

/-- The six raw segments of the C4 failing input (fresh from the
segmenter: no `safety_score`, no `anomalies` key). -/
noncomputable def c4Segments : List Segment :=
  [{ segment_id := "seg_0" }, { segment_id := "seg_1" }, { segment_id := "seg_2" },
   { segment_id := "seg_3" }, { segment_id := "seg_4" }, { segment_id := "seg_5" }]

/-- The C4 risk factors: five segments with a fresh crime score 1, the
outlier `seg_5` with crime score 0, all observed at the query time. -/
noncomputable def c4RiskFactors : String → Option (String → Option RiskFactor) :=
  fun sid => if sid = "seg_5" then some (crimeFactorMap 0 0) else some (crimeFactorMap 1 0)

/-- C4 (code bug): on the failing input the computed safety scores are
`[1, 1, 1, 1, 1, 0]`, whose z-score at the outlier exceeds the default
threshold 2 — the claim requires the outlier's score be pulled to
`mean + (0 − mean)·0.5 = 5/12` with an anomaly record appended.  But
`_detect_anomalies` computes z-scores from the NOT-YET-SCORED input
segments (all defaulting to 0.5, a degenerate distribution), so it
never fires: the outlier keeps score 0 and every returned anomaly list
is the hard-coded empty list. -/
theorem C4_anomaly_adjustment_never_happens :
    defaultConfig.anomaly_threshold < |zscoreAt [1, 1, 1, 1, 1, 0] 5| ∧
    ((calculate_segment_scores defaultConfig c4Segments c4RiskFactors 0).map
      fun s => s.safety_score) = [some 1, some 1, some 1, some 1, some 1, some 0] ∧
    ((calculate_segment_scores defaultConfig c4Segments c4RiskFactors 0).map
      fun s => s.anomalies) = List.replicate 6 (some ([] : List AnomalyRecord)) := by
  have hun : ∀ s ∈ c4Segments, s.safety_score = none := by
    intro s hs
    simp [c4Segments] at hs
    rcases hs with rfl | rfl | rfl | rfl | rfl | rfl <;> rfl
  have ht : (0 : ℝ) ≤ defaultConfig.anomaly_threshold := by norm_num [defaultConfig]
  refine ⟨?_, ?_, ?_⟩
  · have hmean : populationMean [1, 1, 1, 1, 1, 0] = 5 / 6 := by
      simp [populationMean]
      norm_num
    have hstd : populationStd [1, 1, 1, 1, 1, 0] = Real.sqrt (5 / 36) := by
      unfold populationStd
      rw [hmean]
      congr 1
      norm_num
    have hspos : 0 < Real.sqrt (5 / 36) := Real.sqrt_pos.mpr (by norm_num)
    have hs2 : Real.sqrt (5 / 36) ^ 2 = 5 / 36 := Real.sq_sqrt (by norm_num)
    have hz : zscoreAt [1, 1, 1, 1, 1, 0] 5 = -(5 / 6) / Real.sqrt (5 / 36) := by
      unfold zscoreAt
      rw [hmean, hstd]
      norm_num
    rw [hz, abs_div, abs_neg, abs_of_pos hspos, abs_of_pos (by norm_num : (0 : ℝ) < 5 / 6)]
    have hthr : defaultConfig.anomaly_threshold = 2 := by norm_num [defaultConfig]
    rw [hthr, lt_div_iff₀ hspos]
    nlinarith [hs2, hspos, sq_nonneg (2 * Real.sqrt (5 / 36) - 5 / 6)]
  · rw [calculate_segment_scores,
      scoreSegmentsAux_unscored defaultConfig c4Segments c4RiskFactors 0 hun ht]
    simp [c4Segments, c4RiskFactors, crimeFactorMap, rawSafetyScore, weightedSums,
      weightedStep, decayedFactorScore, defaultConfig]
    norm_num
  · rw [calculate_segment_scores,
      scoreSegmentsAux_unscored defaultConfig c4Segments c4RiskFactors 0 hun ht]
    simp [c4Segments]

/-- The refinement target for C9, following the spec's words: the
length-weighted average of safety scores over exactly the segments
with positive length and a present safety score, defaulting to 0.5
when no segment qualifies (in particular on the empty sequence). -/
noncomputable def specAverageSafetyScore (segments : List Segment) : ℝ :=
  let qualifying := segments.filter fun s =>
    decide (0 < s.length.getD 0) && s.safety_score.isSome
  if qualifying.isEmpty then 0.5
  else ((qualifying.map fun s => s.safety_score.getD 0 * s.length.getD 0).sum) /
    ((qualifying.map fun s => s.length.getD 0).sum)

/-- The two parallel lists built by `_calculate_route_metrics` are the
(score, length) pairs of exactly the qualifying segments. -/
theorem metricWeightPairs_eq_filter (segments : List Segment) :
    metricWeightPairs segments =
      (segments.filter fun s => decide (0 < s.length.getD 0) && s.safety_score.isSome).map
        fun s => (s.safety_score.getD 0, s.length.getD 0) := by
  induction segments with
  | nil => rfl
  | cons s rest ih =>
      simp only [metricWeightPairs, List.filter_cons]
      rcases hss : s.safety_score with _ | sc
      · simp [hss, ih]
      · by_cases hl : 0 < s.length.getD 0
        · simp [hss, hl, ih]
        · simp [hss, hl, ih]

/-- C9: the `average_safety_score` computed by
`_calculate_route_metrics` equals the length-weighted average over
exactly the segments with positive length and a present safety score,
and is 0.5 when no segment qualifies (including the empty sequence). -/
theorem C9_average_safety_is_length_weighted (segments : List Segment) :
    (calculate_route_metrics segments).average_safety_score
      = specAverageSafetyScore segments := by
  simp only [calculate_route_metrics, specAverageSafetyScore, metricWeightPairs_eq_filter]
  rcases hqual : segments.filter
      (fun s => decide (0 < s.length.getD 0) && s.safety_score.isSome) with _ | ⟨q, qs⟩ <;>
    rw [hqual] <;> simp [List.map_map, Function.comp_def]

end DWGPAS
